import Mathlib

/-!
Verification development for the interaction-scoring core of the CRAN
`interpret` package (EBM interaction detection, C++ sources).

The development shallowly embeds the code paths of
`CalculateInteractionScore` / `CalculateInteractionScoreInternal`
(src/unnamed/part_000), `FindBestInteractionGainPairs` (the pair sweep),
`CachedInteractionThreadResources::GetThreadByteBuffer1`
(src/src/ebm_native/CachedThreadResourcesInteraction.cpp) and
`InitializeInteractionClassification`
(src/src/ebm_native/InteractionDetection.cpp), together with the size_t
overflow helpers of EbmInternal.h.

Modelling conventions:
* `size_t` is a 64-bit unsigned machine word; values are `Nat` and every
  operation that can wrap in C is written with an explicit `% 2 ^ 64`.
  `IntEbmType` (int64) and `ptrdiff_t` are `Int`.
* IEEE float64 (`FloatEbmType`) is modelled by `EFloat`: a NaN, the two
  infinities, or an exact rational value, with overflow to the infinities
  past `DBL_MAX`.  Rounding of finite results is not modelled; the theorems
  below concern sign, NaN and the post-filter coercion, none of which
  depend on rounding.
* `malloc` success is an explicit oracle argument (`Option Nat` for the
  returned pointer / allocation identity, `Bool` for plain success);
  a heap of live allocation identities is threaded where object lifetime
  itself is under study.
* Pointer-level argument passing is abstracted: a `(count, pointer)` array
  pair becomes a Lean list, so the `nullptr`-array and negative-count
  branches of the C code (which all return status 1 after writing 0) are
  not representable; no claim concerns them.  `interactionScoreOut` is
  modelled as non-null, with the value written to it (if any) recorded in
  the result.
-/

/-- DBL_MAX, the value of `std::numeric_limits<FloatEbmType>::max()` for
float64: `(2 - 2 ^ -52) * 2 ^ 1023`, exactly `2 ^ 1024 - 2 ^ 971`. -/
def maxFloatQ : ℚ := 2 ^ 1024 - 2 ^ 971

/-- Shallow model of an IEEE float64 value: NaN, an infinity, or an exact
finite value. -/
inductive EFloat where
  | nan : EFloat
  | inf : EFloat
  | ninf : EFloat
  | fin (q : ℚ) : EFloat
deriving DecidableEq

/-- Clamp an exact finite result to the float64 range: magnitudes beyond
`DBL_MAX` overflow to the corresponding infinity. -/
def fclamp (q : ℚ) : EFloat :=
  if maxFloatQ < q then EFloat.inf
  else if q < -maxFloatQ then EFloat.ninf
  else EFloat.fin q

/-- IEEE addition on the model. -/
def EFloat.add : EFloat → EFloat → EFloat
  | EFloat.nan, _ => EFloat.nan
  | _, EFloat.nan => EFloat.nan
  | EFloat.inf, EFloat.ninf => EFloat.nan
  | EFloat.ninf, EFloat.inf => EFloat.nan
  | EFloat.inf, _ => EFloat.inf
  | _, EFloat.inf => EFloat.inf
  | EFloat.ninf, _ => EFloat.ninf
  | _, EFloat.ninf => EFloat.ninf
  | EFloat.fin a, EFloat.fin b => fclamp (a + b)

/-- IEEE multiplication on the model. -/
def EFloat.mul : EFloat → EFloat → EFloat
  | EFloat.nan, _ => EFloat.nan
  | _, EFloat.nan => EFloat.nan
  | EFloat.inf, EFloat.inf => EFloat.inf
  | EFloat.inf, EFloat.ninf => EFloat.ninf
  | EFloat.ninf, EFloat.inf => EFloat.ninf
  | EFloat.ninf, EFloat.ninf => EFloat.inf
  | EFloat.inf, EFloat.fin b =>
      if b = 0 then EFloat.nan else if 0 < b then EFloat.inf else EFloat.ninf
  | EFloat.fin a, EFloat.inf =>
      if a = 0 then EFloat.nan else if 0 < a then EFloat.inf else EFloat.ninf
  | EFloat.ninf, EFloat.fin b =>
      if b = 0 then EFloat.nan else if 0 < b then EFloat.ninf else EFloat.inf
  | EFloat.fin a, EFloat.ninf =>
      if a = 0 then EFloat.nan else if 0 < a then EFloat.ninf else EFloat.inf
  | EFloat.fin a, EFloat.fin b => fclamp (a * b)

/-- IEEE division on the model (one signless zero; `x / 0` follows the sign
of `x`, `0 / 0` is NaN). -/
def EFloat.div : EFloat → EFloat → EFloat
  | EFloat.nan, _ => EFloat.nan
  | _, EFloat.nan => EFloat.nan
  | EFloat.inf, EFloat.inf => EFloat.nan
  | EFloat.inf, EFloat.ninf => EFloat.nan
  | EFloat.ninf, EFloat.inf => EFloat.nan
  | EFloat.ninf, EFloat.ninf => EFloat.nan
  | EFloat.inf, EFloat.fin b => if 0 ≤ b then EFloat.inf else EFloat.ninf
  | EFloat.ninf, EFloat.fin b => if 0 ≤ b then EFloat.ninf else EFloat.inf
  | EFloat.fin _, EFloat.inf => EFloat.fin 0
  | EFloat.fin _, EFloat.ninf => EFloat.fin 0
  | EFloat.fin a, EFloat.fin b =>
      if b = 0 then
        if a = 0 then EFloat.nan else if 0 < a then EFloat.inf else EFloat.ninf
      else fclamp (a / b)

/-- The C comparison `x <= y` on float64: false whenever either side is NaN. -/
def EFloat.leb : EFloat → EFloat → Bool
  | EFloat.nan, _ => false
  | _, EFloat.nan => false
  | EFloat.ninf, _ => true
  | _, EFloat.inf => true
  | EFloat.inf, _ => false
  | EFloat.fin _, EFloat.ninf => false
  | EFloat.fin a, EFloat.fin b => decide (a ≤ b)

/-- `std::isnan` on the model. -/
def EFloat.isNan : EFloat → Bool
  | EFloat.nan => true
  | _ => false

/-- Conversion `static_cast<FloatEbmType>(count)` of a sample count; counts
are below `2 ^ 64`, far inside the float64 range (the rounding of large
counts is not modelled). -/
def EFloat.ofCount (n : Nat) : EFloat := EFloat.fin n

/-- A float64 value that is either NaN, or non-negative (including `+inf`).
This is the invariant the sweep maintains for splitting scores. -/
def EFloat.NanOrNonneg : EFloat → Prop
  | EFloat.nan => True
  | EFloat.inf => True
  | EFloat.ninf => False
  | EFloat.fin q => 0 ≤ q

/-- Overflow check `IsMultiplyError` from EbmInternal.h:
for nonzero `num1`, tests `(SIZE_MAX - num1 + 1) / num1 < num2`. -/
def IsMultiplyError (num1 num2 : Nat) : Bool :=
  num1 != 0 && decide ((2 ^ 64 - 1 - num1 + 1) / num1 < num2)

/-- Overflow check `IsAddError` from EbmInternal.h: unsigned wraparound test
`num1 + num2 < num1`. -/
def IsAddError (num1 num2 : Nat) : Bool :=
  decide ((num1 + num2) % 2 ^ 64 < num1)

/-- `GetVectorLength` from EbmInternal.h (without EXPAND_BINARY_LOGITS):
one score channel for regression and binary classification, `K` channels
for `K ≥ 3` classes. -/
def GetVectorLength (learningTypeOrCountTargetClasses : Int) : Nat :=
  if learningTypeOrCountTargetClasses ≤ 2 then 1
  else learningTypeOrCountTargetClasses.toNat

/-- `IsClassification` from EbmInternal.h: the runtime learning type is a
class count (≥ 0) rather than `k_regression = -1`. -/
def IsClassification (learningTypeOrCountTargetClasses : Int) : Bool :=
  decide (0 ≤ learningTypeOrCountTargetClasses)

/-- `k_cDimensionsMax` from EbmInternal.h on a 64-bit host: one less than
the bit width of `size_t`. -/
def k_cDimensionsMax : Nat := 63

/-- Modelled from the spec: HistogramBucket.h is not under src/.  Per §3 a
GradientPair holds a float64 gradient sum plus, for classification only, a
float64 denominator sum, so one per-class entry is 16 bytes for
classification and 8 for regression. -/
def bytesPerVectorEntry (bClassification : Bool) : Nat :=
  if bClassification then 16 else 8

/-- Modelled from the spec: HistogramBucket.h is not under src/.  Per §3 a
Bin is one 64-bit sample count followed by `cVectorLength` GradientPairs;
`GetHistogramBucketSizeOverflow` reports overflow of that size computation
in size_t. -/
def GetHistogramBucketSizeOverflow (bClassification : Bool) (cVectorLength : Nat) : Bool :=
  IsMultiplyError (bytesPerVectorEntry bClassification) cVectorLength ||
    IsAddError 8 (bytesPerVectorEntry bClassification * cVectorLength)

/-- Modelled from the spec: HistogramBucket.h is not under src/.  The byte
size of one Bin: the 8-byte sample count plus the per-class entries. -/
def GetHistogramBucketSize (bClassification : Bool) (cVectorLength : Nat) : Nat :=
  8 + bytesPerVectorEntry bClassification * cVectorLength

/-- One binned feature as held by `EbmInteractionState` (class `Feature`,
FeatureAtomic.h): only the bin count matters to the scoring paths. -/
structure Feature where
  countBins : Nat
deriving DecidableEq

/-- The fields of `EbmInteractionState` (InteractionDetection.h) read by
`CalculateInteractionScore`: the learning type (`-1` regression, otherwise
the class count), the feature table, and the dataset's sample count. -/
structure InteractionState where
  lt : Int
  features : List Feature
  cSamples : Nat
deriving DecidableEq

/-- Observable outcome of one `CalculateInteractionScore` call: the status
code it returns, the value written to the (non-null) `interactionScoreOut`
if any, and whether the histogram-building internal path was entered. -/
structure ScoreResult where
  status : Int
  written : Option EFloat
  ranInternal : Bool
deriving DecidableEq

/-- The two fields of `CachedInteractionThreadResources`
(CachedThreadResourcesInteraction.h): buffer capacity in bytes and the
buffer pointer, modelled as an optional allocation identity. -/
structure CachedRes where
  cap : Nat
  buf : Option Nat
deriving DecidableEq

/-- `CachedInteractionThreadResources::InitializeZero`. -/
def CachedRes.init : CachedRes := CachedRes.mk 0 none

/-- Result of one `GetThreadByteBuffer1` call: the returned pointer, the
updated resource fields, and the pointer passed to `free` (freeing the null
pointer is a no-op). -/
structure BufRequest where
  ret : Option Nat
  mem : CachedRes
  freedOld : Option Nat
deriving DecidableEq

/-- `CachedInteractionThreadResources::GetThreadByteBuffer1`
(CachedThreadResourcesInteraction.cpp lines 38-49).  When the capacity is
insufficient, the capacity field is set to `cBytesRequired << 1` (size_t
wraparound), the old buffer is freed, and the stored pointer is overwritten
with the result of `EbmMalloc` — here the oracle `allocResult`. -/
def GetThreadByteBuffer1 (mem : CachedRes) (allocResult : Option Nat)
    (cBytesRequired : Nat) : BufRequest :=
  if mem.cap < cBytesRequired then
    BufRequest.mk allocResult
      (CachedRes.mk ((cBytesRequired <<< 1) % 2 ^ 64) allocResult) mem.buf
  else
    BufRequest.mk mem.buf mem none

/-- One quadrant Bin as consumed by the pair sweep: the sample count and the
per-channel gradient sums (`m_sumResidualError`). -/
structure HBucket where
  cnt : Nat
  resid : Nat → EFloat

/-- Modelled from the spec: EbmStatisticUtils.h is not under src/.  Per §4.3
step 3 the per-channel gain of a quadrant is
`sum_gradient^2 / sample_count`, computed in float64. -/
def ComputeNodeSplittingScore (sumResidualError cSamplesInBucket : EFloat) : EFloat :=
  EFloat.div (EFloat.mul sumResidualError sumResidualError) cSamplesInBucket

/-- The per-candidate splitting score of `FindBestInteractionGainPairsInternal`
(hidden source after the separator in man/ebm_show.Rd): for each class
channel, the four quadrant gains (LowLow, LowHigh, HighLow, HighHigh) are
added into the running score in source order.  The quadrant statistics —
produced there by `TensorTotalsSum`, whose header is not under src/ — enter
through the oracle `Q`. -/
def splittingScoreAt (Q : Nat → Nat → Fin 4 → HBucket) (cVectorLength iBin1 iBin2 : Nat) :
    EFloat :=
  (List.range cVectorLength).foldl
    (fun acc iVector =>
      EFloat.add
        (EFloat.add
          (EFloat.add
            (EFloat.add acc
              (ComputeNodeSplittingScore ((Q iBin1 iBin2 0).resid iVector)
                (EFloat.ofCount (Q iBin1 iBin2 0).cnt)))
            (ComputeNodeSplittingScore ((Q iBin1 iBin2 1).resid iVector)
              (EFloat.ofCount (Q iBin1 iBin2 1).cnt)))
          (ComputeNodeSplittingScore ((Q iBin1 iBin2 2).resid iVector)
            (EFloat.ofCount (Q iBin1 iBin2 2).cnt)))
        (ComputeNodeSplittingScore ((Q iBin1 iBin2 3).resid iVector)
          (EFloat.ofCount (Q iBin1 iBin2 3).cnt)))
    (EFloat.fin 0)

/-- One candidate cut of the sweep: the four `cSamplesRequiredForChildSplitMin`
short-circuit checks in source order (LowLow, LowHigh, HighLow, HighHigh),
then the NaN-propagating best update
`if !(splittingScore <= bestSplittingScore) bestSplittingScore = splittingScore`. -/
def sweepStep (cSamplesRequiredForChildSplitMin : Nat) (Q : Nat → Nat → Fin 4 → HBucket)
    (cVectorLength : Nat) (best : EFloat) (iBin1 iBin2 : Nat) : EFloat :=
  if cSamplesRequiredForChildSplitMin ≤ (Q iBin1 iBin2 0).cnt then
    if cSamplesRequiredForChildSplitMin ≤ (Q iBin1 iBin2 1).cnt then
      if cSamplesRequiredForChildSplitMin ≤ (Q iBin1 iBin2 2).cnt then
        if cSamplesRequiredForChildSplitMin ≤ (Q iBin1 iBin2 3).cnt then
          if !(EFloat.leb (splittingScoreAt Q cVectorLength iBin1 iBin2) best) then
            splittingScoreAt Q cVectorLength iBin1 iBin2
          else best
        else best
      else best
    else best
  else best

/-- `FindBestInteractionGainPairs` (hidden source in man/ebm_show.Rd):
`bestSplittingScore` starts at 0 and the do-while loops visit every cut pair
`(iBin1, iBin2)` with `iBin1 < cBins1 - 1`, `iBin2 < cBins2 - 1`; both bin
counts are at least 2 on every call (1-bin features are filtered out by the
caller), matching the ranges below. -/
def FindBestInteractionGainPairs (cSamplesRequiredForChildSplitMin : Nat)
    (Q : Nat → Nat → Fin 4 → HBucket) (cVectorLength cBins1 cBins2 : Nat) : EFloat :=
  (List.range (cBins1 - 1)).foldl
    (fun best iBin1 =>
      (List.range (cBins2 - 1)).foldl
        (fun b iBin2 => sweepStep cSamplesRequiredForChildSplitMin Q cVectorLength b iBin1 iBin2)
        best)
    (EFloat.fin 0)

/-- The post-filter of `CalculateInteractionScoreInternal` (part_000 lines
214-217): a NaN or `>= DBL_MAX` best splitting score is coerced to 0 before
being written out. -/
def postFilterScore (bestSplittingScore : EFloat) : EFloat :=
  if bestSplittingScore.isNan || EFloat.leb (EFloat.fin maxFloatQ) bestSplittingScore then
    EFloat.fin 0
  else bestSplittingScore

/-- The per-dimension sizing loop of `CalculateInteractionScoreInternal`
(part_000 lines 64-87): accumulates the auxiliary fast-totals bucket count
(size_t wraparound permitted, caught later) and the overflow-checked main
tensor bucket count; returns `(cTotalBucketsMainSpace, cAuxillaryBucketsForBuildFastTotals)`
or `none` on multiplication overflow. -/
def sizingLoop : List Nat → Nat → Nat → Option (Nat × Nat)
  | [], aux, total => some (total, aux)
  | cBins :: rest, aux, total =>
    if IsMultiplyError total cBins then none
    else sizingLoop rest ((aux + total) % 2 ^ 64) (total * cBins)

/-- The complete sizing cascade of `CalculateInteractionScoreInternal`
(part_000 lines 64-112): dimension loop, auxiliary-bucket max with the 4
splitting buckets, add-overflow check, bucket-byte-size overflow check and
final multiplication check.  Returns `(cTotalBucketsMainSpace, cBytesBuffer)`
or `none` if any sizing computation overflows. -/
def internalSizing (lt : Int) (bins : List Nat) : Option (Nat × Nat) :=
  match sizingLoop bins 0 1 with
  | none => none
  | some (totalMain, auxFast) =>
    let cAuxillaryBuckets := if auxFast < 4 then 4 else auxFast
    if IsAddError totalMain cAuxillaryBuckets then none
    else
      let bClassification := IsClassification lt
      let cVectorLength := GetVectorLength lt
      if GetHistogramBucketSizeOverflow bClassification cVectorLength then none
      else
        let cBytesPerHistogramBucket := GetHistogramBucketSize bClassification cVectorLength
        if IsMultiplyError (totalMain + cAuxillaryBuckets) cBytesPerHistogramBucket then none
        else some (totalMain, (totalMain + cAuxillaryBuckets) * cBytesPerHistogramBucket)

/-- The scratch-buffer byte count one scoring call requests for a group with
the given bin counts, when no sizing computation overflows. -/
def requestedBytes (lt : Int) (bins : List Nat) : Option Nat :=
  (internalSizing lt bins).map Prod.snd

/-- `CalculateInteractionScoreInternal` (part_000 lines 45-237).  The
zeroing loops, `BinInteraction` and `TensorTotalsBuild` mutate only the
scratch tensor, whose contents reach the result solely through the sweep's
quadrant oracle `Q`; the buffer request goes to a freshly zeroed
`CachedInteractionThreadResources` because the caller allocates a new one
per call.  Returns the error flag and the value written to the score
output. -/
def CalculateInteractionScoreInternal (bufAlloc : Option Nat)
    (Q : Nat → Nat → Fin 4 → HBucket) (lt : Int) (bins : List Nat)
    (cSamplesRequiredForChildSplitMin : Nat) : Bool × Option EFloat :=
  match internalSizing lt bins with
  | none => (true, none)
  | some (_totalMain, cBytesBuffer) =>
    match (GetThreadByteBuffer1 CachedRes.init bufAlloc cBytesBuffer).ret with
    | none => (true, none)
    | some _ =>
      if bins.length = 2 then
        (false, some (postFilterScore
          (FindBestInteractionGainPairs cSamplesRequiredForChildSplitMin Q
            (GetVectorLength lt) (bins.getD 0 0) (bins.getD 1 0))))
      else (false, some (EFloat.fin 0))

/-- The clamp of `countSamplesRequiredForChildSplitMin` (part_000 lines
316-326): values below 1 become 1; on the modelled 64-bit host every
positive int64 converts to size_t, so the saturation branch is dead. -/
def clampSplitMin (countSamplesRequiredForChildSplitMin : Int) : Nat :=
  if 1 ≤ countSamplesRequiredForChildSplitMin then
    countSamplesRequiredForChildSplitMin.toNat
  else 1

/-- The feature-index validation loop of `CalculateInteractionScore`
(part_000 lines 332-367): a negative or out-of-range index aborts with
status 1 after writing 0; a feature with at most 1 bin returns success with
score 0; otherwise the scan continues (`none` = fall through). -/
def checkFeaturesLoop (features : List Feature) : List Int → Option ScoreResult
  | [] => none
  | indexFeatureInterop :: rest =>
    if indexFeatureInterop < 0 then
      some (ScoreResult.mk 1 (some (EFloat.fin 0)) false)
    else if features.length ≤ indexFeatureInterop.toNat then
      some (ScoreResult.mk 1 (some (EFloat.fin 0)) false)
    else if (features.getD indexFeatureInterop.toNat (Feature.mk 0)).countBins ≤ 1 then
      some (ScoreResult.mk 0 (some (EFloat.fin 0)) false)
    else checkFeaturesLoop features rest

/-- The bin counts of the group assembled from the feature indexes
(part_000 lines 381-395). -/
def binsOf (st : InteractionState) (featureIndexes : List Int) : List Nat :=
  featureIndexes.map (fun i => (st.features.getD i.toNat (Feature.mk 0)).countBins)

/-- `CalculateInteractionScore` (part_000 lines 244-440) on a non-null
context with a non-null score output.  `resAllocOk` is the oracle for the
per-call `CachedInteractionThreadResources::Allocate`, `bufAlloc` the oracle
for the scratch-buffer `EbmMalloc` inside it, and `Q` the quadrant totals of
the binned data. -/
def CalculateInteractionScore (st : InteractionState) (featureIndexes : List Int)
    (countSamplesRequiredForChildSplitMin : Int) (resAllocOk : Bool)
    (bufAlloc : Option Nat) (Q : Nat → Nat → Fin 4 → HBucket) : ScoreResult :=
  if featureIndexes.length = 0 then ScoreResult.mk 0 (some (EFloat.fin 0)) false
  else if st.cSamples = 0 then ScoreResult.mk 0 (some (EFloat.fin 0)) false
  else
    match checkFeaturesLoop st.features featureIndexes with
    | some r => r
    | none =>
      if k_cDimensionsMax < featureIndexes.length then ScoreResult.mk 1 none false
      else if st.lt = 0 ∨ st.lt = 1 then ScoreResult.mk 0 (some (EFloat.fin 0)) false
      else if resAllocOk then
        ScoreResult.mk
          (if (CalculateInteractionScoreInternal bufAlloc Q st.lt
                (binsOf st featureIndexes)
                (clampSplitMin countSamplesRequiredForChildSplitMin)).1
           then 1 else 0)
          (CalculateInteractionScoreInternal bufAlloc Q st.lt
            (binsOf st featureIndexes)
            (clampSplitMin countSamplesRequiredForChildSplitMin)).2
          true
      else ScoreResult.mk 1 none false

/-- A heap of live allocation identities, for tracking object lifetime:
`next` is the next fresh identity, `live` the currently live allocations. -/
structure Heap where
  next : Nat
  live : List Nat
deriving DecidableEq

/-- Well-formedness: every live identity was produced by the counter. -/
def Heap.WF (h : Heap) : Prop := ∀ i ∈ h.live, i < h.next

instance (h : Heap) : Decidable h.WF := List.decidableBAll _ h.live

/-- A successful `malloc`: returns a fresh live identity. -/
def halloc (h : Heap) : Nat × Heap :=
  (h.next, Heap.mk (h.next + 1) (h.next :: h.live))

/-- `free`: removes an identity from the live set. -/
def hfree (h : Heap) (i : Nat) : Heap := Heap.mk h.next (h.live.erase i)

/-- The resource lifecycle of one `CalculateInteractionScore` call
(part_000 lines 407-421 with CachedThreadResourcesInteraction.cpp): a fresh
`CachedInteractionThreadResources` is allocated and zeroed, the scratch
buffer of `cBytesBuffer` bytes is requested from it, and
`CachedInteractionThreadResources::Free` then frees the byte buffer and the
resources object before the call returns.  Allocations are modelled as
succeeding; the result is the post-call heap and the buffer pointer the
internal code used. -/
def scoreCallResources (cBytesBuffer : Nat) (h : Heap) : Heap × Option Nat :=
  let a := halloc h
  let g :=
    if CachedRes.init.cap < cBytesBuffer then
      let b := halloc a.2
      (GetThreadByteBuffer1 CachedRes.init (some b.1) cBytesBuffer, b.2)
    else (GetThreadByteBuffer1 CachedRes.init none cBytesBuffer, a.2)
  let afterBuf :=
    match g.1.mem.buf with
    | some b => hfree g.2 b
    | none => g.2
  (hfree afterBuf a.1, g.1.ret)

/-- The wire-format feature descriptor `EbmNativeFeature` (ebm_native.h):
feature type (0 ordinal, 1 nominal), signed bin count, missing flag. -/
structure EbmNativeFeature where
  featureType : Int
  countBins : Int
  hasMissing : Int
deriving DecidableEq

/-- The per-feature validation of `EbmInteractionState::Allocate`
(InteractionDetection.cpp lines 63-118): feature type must be ordinal or
nominal, the bin count non-negative (and nonzero when samples exist), and
the missing flag 0 or 1; the int64-to-size_t convertibility check is always
true on the modelled 64-bit host. -/
def featureOk (cSamples : Int) (f : EbmNativeFeature) : Bool :=
  (decide (f.featureType = 0) || decide (f.featureType = 1)) &&
    decide (0 ≤ f.countBins) &&
    !(decide (f.countBins = 0) && decide (cSamples ≠ 0)) &&
    (decide (f.hasMissing = 0) || decide (f.hasMissing = 1))

/-- `AllocateInteraction` plus `EbmInteractionState::Allocate`
(InteractionDetection.cpp lines 35-219), with the feature array given as a
list (so the negative-count and null-pointer branches are unrepresentable)
and `DataSetByFeature::Initialize` success as the oracle `dsOk`; heap
allocations are modelled as succeeding.  Returns the constructed state, or
`none` for a null handle. -/
def AllocateInteraction (lt : Int) (countSamples : Int)
    (features : List EbmNativeFeature) (dsOk : Bool) : Option InteractionState :=
  if countSamples < 0 then none
  else if features.all (featureOk countSamples) then
    if dsOk then
      some (InteractionState.mk lt
        (features.map (fun f => Feature.mk f.countBins.toNat)) countSamples.toNat)
    else none
  else none

/-- `InitializeInteractionClassification` (InteractionDetection.cpp lines
221-269): rejects a negative class count, and rejects class count 0 when
samples exist; the int64-to-ptrdiff_t convertibility check is always true on
the modelled 64-bit host. -/
def InitializeInteractionClassification (countTargetClasses countSamples : Int)
    (features : List EbmNativeFeature) (dsOk : Bool) : Option InteractionState :=
  if countTargetClasses < 0 then none
  else if countTargetClasses = 0 ∧ countSamples ≠ 0 then none
  else AllocateInteraction countTargetClasses countSamples features dsOk

/-- A feature-group index that refers to an existing feature of the
context: non-negative and within the feature table. -/
def validIdx (features : List Feature) (i : Int) : Prop :=
  0 ≤ i ∧ i.toNat < features.length

instance (features : List Feature) (i : Int) : Decidable (validIdx features i) :=
  instDecidableAnd

theorem maxFloatQ_pos : 0 < maxFloatQ := by norm_num [maxFloatQ]

theorem fclamp_nonneg {q : ℚ} (h : 0 ≤ q) : (fclamp q).NanOrNonneg := by
  unfold fclamp
  split
  · trivial
  · split
    · have := maxFloatQ_pos
      exact absurd (by linarith : q < -maxFloatQ) (by linarith)
    · exact h

theorem mul_self_nanOrNonneg (x : EFloat) : (EFloat.mul x x).NanOrNonneg := by
  cases x with
  | nan => trivial
  | inf => trivial
  | ninf => trivial
  | fin a => exact fclamp_nonneg (mul_self_nonneg a)

theorem computeNodeSplittingScore_nanOrNonneg (g : EFloat) (n : Nat) :
    (ComputeNodeSplittingScore g (EFloat.ofCount n)).NanOrNonneg := by
  unfold ComputeNodeSplittingScore EFloat.ofCount
  have hsq := mul_self_nanOrNonneg g
  cases hmul : EFloat.mul g g with
  | nan => trivial
  | inf =>
    show (EFloat.div EFloat.inf (EFloat.fin n)).NanOrNonneg
    simp [EFloat.div, EFloat.NanOrNonneg, Nat.cast_nonneg]
  | ninf => rw [hmul] at hsq; exact hsq.elim
  | fin a =>
    rw [hmul] at hsq
    show (EFloat.div (EFloat.fin a) (EFloat.fin n)).NanOrNonneg
    by_cases hn : ((n : ℚ)) = 0
    · by_cases ha : a = 0
      · simp [EFloat.div, hn, ha, EFloat.NanOrNonneg]
      · have ha2 : 0 < a := lt_of_le_of_ne hsq (Ne.symm ha)
        simp [EFloat.div, hn, ha, ha2, EFloat.NanOrNonneg]
    · have : EFloat.div (EFloat.fin a) (EFloat.fin n) = fclamp (a / n) := by
        simp [EFloat.div, hn]
      rw [this]
      exact fclamp_nonneg (div_nonneg hsq (Nat.cast_nonneg n))

theorem add_nanOrNonneg {x y : EFloat} (hx : x.NanOrNonneg) (hy : y.NanOrNonneg) :
    (EFloat.add x y).NanOrNonneg := by
  cases x with
  | nan => cases y <;> trivial
  | inf => cases y with
    | nan => trivial
    | inf => trivial
    | ninf => exact hy.elim
    | fin b => trivial
  | ninf => exact hx.elim
  | fin a => cases y with
    | nan => trivial
    | inf => trivial
    | ninf => exact hy.elim
    | fin b => exact fclamp_nonneg (add_nonneg hx hy)

theorem foldl_nanOrNonneg {α : Type} {f : EFloat → α → EFloat}
    (hf : ∀ a x, a.NanOrNonneg → (f a x).NanOrNonneg) :
    ∀ (l : List α) (a : EFloat), a.NanOrNonneg → (l.foldl f a).NanOrNonneg := by
  intro l
  induction l with
  | nil => intro a ha; exact ha
  | cons x xs ih => intro a ha; exact ih _ (hf a x ha)

theorem splittingScoreAt_nanOrNonneg (Q : Nat → Nat → Fin 4 → HBucket)
    (cVectorLength iBin1 iBin2 : Nat) :
    (splittingScoreAt Q cVectorLength iBin1 iBin2).NanOrNonneg := by
  unfold splittingScoreAt
  apply foldl_nanOrNonneg
  · intro a v ha
    exact add_nanOrNonneg
      (add_nanOrNonneg
        (add_nanOrNonneg
          (add_nanOrNonneg ha (computeNodeSplittingScore_nanOrNonneg _ _))
          (computeNodeSplittingScore_nanOrNonneg _ _))
        (computeNodeSplittingScore_nanOrNonneg _ _))
      (computeNodeSplittingScore_nanOrNonneg _ _)
  · exact le_refl (0 : ℚ)

theorem sweepStep_nanOrNonneg (m : Nat) (Q : Nat → Nat → Fin 4 → HBucket)
    (cVectorLength : Nat) {best : EFloat} (h : best.NanOrNonneg) (iBin1 iBin2 : Nat) :
    (sweepStep m Q cVectorLength best iBin1 iBin2).NanOrNonneg := by
  unfold sweepStep
  split
  · split
    · split
      · split
        · split
          · exact splittingScoreAt_nanOrNonneg Q cVectorLength iBin1 iBin2
          · exact h
        · exact h
      · exact h
    · exact h
  · exact h

theorem findBestInteractionGainPairs_nanOrNonneg (m : Nat)
    (Q : Nat → Nat → Fin 4 → HBucket) (cVectorLength cBins1 cBins2 : Nat) :
    (FindBestInteractionGainPairs m Q cVectorLength cBins1 cBins2).NanOrNonneg := by
  unfold FindBestInteractionGainPairs
  apply foldl_nanOrNonneg
  · intro a i ha
    apply foldl_nanOrNonneg
    · intro b j hb
      exact sweepStep_nanOrNonneg m Q cVectorLength hb i j
    · exact ha
  · exact le_refl (0 : ℚ)

theorem postFilterScore_range {b : EFloat} (hb : b.NanOrNonneg) :
    ∃ q : ℚ, postFilterScore b = EFloat.fin q ∧ 0 ≤ q ∧ q < maxFloatQ := by
  unfold postFilterScore
  split
  · exact ⟨0, rfl, le_refl 0, maxFloatQ_pos⟩
  · rename_i hcond
    cases b with
    | nan => simp [EFloat.isNan] at hcond
    | inf => simp [EFloat.isNan, EFloat.leb] at hcond
    | ninf => exact hb.elim
    | fin q =>
      refine ⟨q, rfl, hb, ?_⟩
      simp [EFloat.isNan, EFloat.leb] at hcond
      exact hcond

theorem postFilterScore_coerces {b : EFloat}
    (h : b.isNan = true ∨ EFloat.leb (EFloat.fin maxFloatQ) b = true) :
    postFilterScore b = EFloat.fin 0 := by
  unfold postFilterScore
  rcases h with h | h <;> simp [h]

theorem internal_result (bufAlloc : Option Nat) (Q : Nat → Nat → Fin 4 → HBucket)
    (lt : Int) (bins : List Nat) (m : Nat) :
    CalculateInteractionScoreInternal bufAlloc Q lt bins m = (true, none) ∨
    ∃ w, CalculateInteractionScoreInternal bufAlloc Q lt bins m = (false, some w) ∧
      ∃ q : ℚ, w = EFloat.fin q ∧ 0 ≤ q ∧ q < maxFloatQ := by
  unfold CalculateInteractionScoreInternal
  split
  · exact Or.inl rfl
  · split
    · exact Or.inl rfl
    · split
      · exact Or.inr ⟨_, rfl,
          postFilterScore_range (findBestInteractionGainPairs_nanOrNonneg _ _ _ _ _)⟩
      · exact Or.inr ⟨_, rfl, 0, rfl, le_refl 0, maxFloatQ_pos⟩

theorem checkFeaturesLoop_cases (fs : List Feature) :
    ∀ (idxs : List Int) (r : ScoreResult), checkFeaturesLoop fs idxs = some r →
      r = ScoreResult.mk 1 (some (EFloat.fin 0)) false ∨
      r = ScoreResult.mk 0 (some (EFloat.fin 0)) false := by
  intro idxs
  induction idxs with
  | nil => intro r h; exact absurd h (by simp [checkFeaturesLoop])
  | cons i rest ih =>
    intro r h
    unfold checkFeaturesLoop at h
    split at h
    · exact Or.inl (Option.some.inj h).symm
    · split at h
      · exact Or.inl (Option.some.inj h).symm
      · split at h
        · exact Or.inr (Option.some.inj h).symm
        · exact ih r h

theorem checkFeaturesLoop_none (fs : List Feature) :
    ∀ (idxs : List Int),
      (∀ i ∈ idxs, validIdx fs i) →
      (∀ i ∈ idxs, 2 ≤ (fs.getD i.toNat (Feature.mk 0)).countBins) →
      checkFeaturesLoop fs idxs = none := by
  intro idxs
  induction idxs with
  | nil => intro _ _; rfl
  | cons i rest ih =>
    intro hv hb
    have hvi := hv i (List.mem_cons_self i rest)
    have hbi := hb i (List.mem_cons_self i rest)
    have h1 : ¬ (i < 0) := not_lt.mpr hvi.1
    have h2 : ¬ (fs.length ≤ i.toNat) := not_le.mpr hvi.2
    have h3 : ¬ ((fs.getD i.toNat (Feature.mk 0)).countBins ≤ 1) := by omega
    unfold checkFeaturesLoop
    rw [if_neg h1, if_neg h2, if_neg h3]
    exact ih (fun j hj => hv j (List.mem_cons_of_mem i hj))
      (fun j hj => hb j (List.mem_cons_of_mem i hj))

theorem checkFeaturesLoop_degenerate (fs : List Feature) :
    ∀ (idxs : List Int),
      (∀ i ∈ idxs, validIdx fs i) →
      (∃ i ∈ idxs, (fs.getD i.toNat (Feature.mk 0)).countBins ≤ 1) →
      checkFeaturesLoop fs idxs = some (ScoreResult.mk 0 (some (EFloat.fin 0)) false) := by
  intro idxs
  induction idxs with
  | nil =>
    intro _ hex
    rcases hex with ⟨i, hi, _⟩
    exact absurd hi (List.not_mem_nil i)
  | cons i rest ih =>
    intro hv hex
    have hvi := hv i (List.mem_cons_self i rest)
    have h1 : ¬ (i < 0) := not_lt.mpr hvi.1
    have h2 : ¬ (fs.length ≤ i.toNat) := not_le.mpr hvi.2
    unfold checkFeaturesLoop
    rw [if_neg h1, if_neg h2]
    by_cases h3 : (fs.getD i.toNat (Feature.mk 0)).countBins ≤ 1
    · rw [if_pos h3]
    · rw [if_neg h3]
      apply ih (fun j hj => hv j (List.mem_cons_of_mem i hj))
      rcases hex with ⟨j, hj, hjb⟩
      rcases List.mem_cons.mp hj with rfl | hj2
      · exact absurd hjb h3
      · exact ⟨j, hj2, hjb⟩

theorem score_written_range (st : InteractionState) (idxs : List Int) (m : Int)
    (resOk : Bool) (bufAlloc : Option Nat) (Q : Nat → Nat → Fin 4 → HBucket) :
    (CalculateInteractionScore st idxs m resOk bufAlloc Q).status = 0 →
    ∀ s, (CalculateInteractionScore st idxs m resOk bufAlloc Q).written = some s →
    ∃ q : ℚ, s = EFloat.fin q ∧ 0 ≤ q ∧ q < maxFloatQ := by
  unfold CalculateInteractionScore
  split
  · intro _ s hs
    exact ⟨0, (Option.some.inj hs).symm, le_refl 0, maxFloatQ_pos⟩
  · split
    · intro _ s hs
      exact ⟨0, (Option.some.inj hs).symm, le_refl 0, maxFloatQ_pos⟩
    · split
      · rename_i r hr
        rcases checkFeaturesLoop_cases st.features idxs r hr with h | h <;> subst h
        · intro h0
          exact absurd h0 (by decide)
        · intro _ s hs
          exact ⟨0, (Option.some.inj hs).symm, le_refl 0, maxFloatQ_pos⟩
      · split
        · intro h0
          exact absurd h0 (by decide)
        · split
          · intro _ s hs
            exact ⟨0, (Option.some.inj hs).symm, le_refl 0, maxFloatQ_pos⟩
          · split
            · rcases internal_result bufAlloc Q st.lt (binsOf st idxs) (clampSplitMin m)
                with h | ⟨w, h, q, hq, hq0, hqlt⟩ <;> rw [h]
              · intro h0
                exact absurd h0 (by decide)
              · intro _ s hs
                have hws : w = s := Option.some.inj (by simpa using hs)
                exact ⟨q, hws ▸ hq, hq0, hqlt⟩
            · intro h0
              exact absurd h0 (by decide)

/-- C1: every call to `CalculateInteractionScore` that returns status 0 and
writes to the non-null score output writes a score that is not NaN, is
non-negative, and is strictly below DBL_MAX; the post-filter coerces a NaN
or `>= DBL_MAX` best splitting score to 0 before it is written. -/
theorem calculateInteractionScore_written_nonneg_lt_max
    (st : InteractionState) (idxs : List Int) (m : Int) (resOk : Bool)
    (bufAlloc : Option Nat) (Q : Nat → Nat → Fin 4 → HBucket) (s : EFloat)
    (hstatus : (CalculateInteractionScore st idxs m resOk bufAlloc Q).status = 0)
    (hw : (CalculateInteractionScore st idxs m resOk bufAlloc Q).written = some s) :
    (∃ q : ℚ, s = EFloat.fin q ∧ 0 ≤ q ∧ q < maxFloatQ) ∧
      (∀ b : EFloat, b.isNan = true ∨ EFloat.leb (EFloat.fin maxFloatQ) b = true →
        postFilterScore b = EFloat.fin 0) :=
  ⟨score_written_range st idxs m resOk bufAlloc Q hstatus s hw,
   fun _ hb => postFilterScore_coerces hb⟩

theorem calculateInteractionScore_written_nonneg_lt_max_witness :
    (CalculateInteractionScore (InteractionState.mk (-1) [Feature.mk 2, Feature.mk 2] 0)
        [0, 1] 1 true (some 7)
        (fun _ _ _ => HBucket.mk 1 (fun _ => EFloat.fin 1))).status = 0 ∧
    ((∃ q : ℚ, EFloat.fin 0 = EFloat.fin q ∧ 0 ≤ q ∧ q < maxFloatQ) ∧
      (∀ b : EFloat, b.isNan = true ∨ EFloat.leb (EFloat.fin maxFloatQ) b = true →
        postFilterScore b = EFloat.fin 0)) :=
  ⟨by decide,
   calculateInteractionScore_written_nonneg_lt_max
     (InteractionState.mk (-1) [Feature.mk 2, Feature.mk 2] 0) [0, 1] 1 true (some 7)
     (fun _ _ _ => HBucket.mk 1 (fun _ => EFloat.fin 1)) (EFloat.fin 0)
     (by decide) (by decide)⟩

theorem checkFeaturesLoop_valid (fs : List Feature) :
    ∀ (idxs : List Int), (∀ i ∈ idxs, validIdx fs i) →
      checkFeaturesLoop fs idxs = none ∨
      checkFeaturesLoop fs idxs = some (ScoreResult.mk 0 (some (EFloat.fin 0)) false) := by
  intro idxs
  induction idxs with
  | nil => intro _; exact Or.inl rfl
  | cons i rest ih =>
    intro hv
    have hvi := hv i (List.mem_cons_self i rest)
    have h1 : ¬ (i < 0) := not_lt.mpr hvi.1
    have h2 : ¬ (fs.length ≤ i.toNat) := not_le.mpr hvi.2
    unfold checkFeaturesLoop
    rw [if_neg h1, if_neg h2]
    by_cases h3 : (fs.getD i.toNat (Feature.mk 0)).countBins ≤ 1
    · rw [if_pos h3]; exact Or.inr rfl
    · rw [if_neg h3]
      exact ih (fun j hj => hv j (List.mem_cons_of_mem i hj))

theorem internalSizing_pos (lt : Int) (bins : List Nat) :
    ∀ t c, internalSizing lt bins = some (t, c) → 0 < c := by
  intro t c h
  unfold internalSizing at h
  split at h
  · exact absurd h (by simp)
  · rename_i totalMain auxFast heq
    have hB : 0 < GetHistogramBucketSize (IsClassification lt) (GetVectorLength lt) := by
      unfold GetHistogramBucketSize; omega
    split at h
    · simp only [] at h
      split at h
      · exact absurd h (by simp)
      · split at h
        · exact absurd h (by simp)
        · split at h
          · exact absurd h (by simp)
          · injection h with h2
            injection h2 with ha hb
            subst hb
            exact Nat.mul_pos (by omega) hB
    · rename_i hge
      simp only [] at h
      split at h
      · exact absurd h (by simp)
      · split at h
        · exact absurd h (by simp)
        · split at h
          · exact absurd h (by simp)
          · injection h with h2
            injection h2 with ha hb
            subst hb
            exact Nat.mul_pos (by omega) hB

/-- C2 counterexample: a valid context with one 2-bin feature and a group of
64 copies of it (length 64 > MAX_DIMS = 63, so D differs from 2) makes
`CalculateInteractionScore` return status 1 without writing the score
output, where the claim requires status 0 and a written 0. -/
theorem calculateInteractionScore_over_max_dims_errors :
    CalculateInteractionScore (InteractionState.mk (-1) [Feature.mk 2] 1)
      (List.replicate 64 0) 1 true (some 7)
      (fun _ _ _ => HBucket.mk 0 (fun _ => EFloat.fin 0)) =
    ScoreResult.mk 1 none false := by decide

/-- C2 amended: for a group of valid feature indexes whose length D differs
from 2, the call returns status 0 with written score 0 whenever
D <= MAX_DIMS and the sizing does not overflow and the allocations succeed;
but for D > MAX_DIMS (with all bins at least 2 and a nonempty dataset, so
that no earlier policy path fires) the call returns the error status 1
without writing the score output. -/
theorem calculateInteractionScore_dims_ne2_policy
    (st : InteractionState) (idxs : List Int) (m : Int) (resOk : Bool)
    (bufAlloc : Option Nat) (Q : Nat → Nat → Fin 4 → HBucket)
    (hvalid : ∀ i ∈ idxs, validIdx st.features i)
    (hD : idxs.length ≠ 2) :
    (idxs.length ≤ k_cDimensionsMax →
      internalSizing st.lt (binsOf st idxs) ≠ none →
      resOk = true → bufAlloc.isSome = true →
      (CalculateInteractionScore st idxs m resOk bufAlloc Q).status = 0 ∧
      (CalculateInteractionScore st idxs m resOk bufAlloc Q).written = some (EFloat.fin 0)) ∧
    (k_cDimensionsMax < idxs.length →
      (∀ i ∈ idxs, 2 ≤ (st.features.getD i.toNat (Feature.mk 0)).countBins) →
      st.cSamples ≠ 0 →
      (CalculateInteractionScore st idxs m resOk bufAlloc Q).status = 1 ∧
      (CalculateInteractionScore st idxs m resOk bufAlloc Q).written = none) := by
  constructor
  · intro hlen hsz hres halloc
    subst hres
    obtain ⟨b, hb⟩ := Option.isSome_iff_exists.mp halloc
    subst hb
    have hlen2 : (binsOf st idxs).length ≠ 2 := by
      unfold binsOf; rw [List.length_map]; exact hD
    rcases hc : internalSizing st.lt (binsOf st idxs) with _ | ⟨t, c⟩
    · exact absurd hc hsz
    · have hpos := internalSizing_pos st.lt (binsOf st idxs) t c hc
      have hB : (GetThreadByteBuffer1 CachedRes.init (some b) c).ret = some b := by
        unfold GetThreadByteBuffer1 CachedRes.init
        rw [if_pos hpos]
      have hint : CalculateInteractionScoreInternal (some b) Q st.lt (binsOf st idxs)
          (clampSplitMin m) = (false, some (EFloat.fin 0)) := by
        unfold CalculateInteractionScoreInternal
        rw [hc]
        simp [hB, hlen2]
      unfold CalculateInteractionScore
      split
      · exact ⟨rfl, rfl⟩
      · split
        · exact ⟨rfl, rfl⟩
        · split
          · rename_i r hr
            rcases checkFeaturesLoop_valid st.features idxs hvalid with h | h
            · rw [h] at hr; exact absurd hr (by simp)
            · rw [h] at hr
              rw [← Option.some.inj hr]
              exact ⟨rfl, rfl⟩
          · rw [if_neg (not_lt.mpr hlen)]
            split
            · exact ⟨rfl, rfl⟩
            · rw [if_pos rfl, hint]
              exact ⟨rfl, rfl⟩
  · intro hgt hbins2 hsmp
    have hne0 : idxs.length ≠ 0 := by omega
    unfold CalculateInteractionScore
    rw [if_neg hne0, if_neg hsmp,
      checkFeaturesLoop_none st.features idxs hvalid hbins2, if_pos hgt]
    exact ⟨rfl, rfl⟩

theorem calculateInteractionScore_dims_ne2_policy_witness :
    ((CalculateInteractionScore (InteractionState.mk (-1) [Feature.mk 2] 1)
        [0] 1 true (some 7) (fun _ _ _ => HBucket.mk 0 (fun _ => EFloat.fin 0))).status = 0 ∧
      (CalculateInteractionScore (InteractionState.mk (-1) [Feature.mk 2] 1)
        [0] 1 true (some 7) (fun _ _ _ => HBucket.mk 0 (fun _ => EFloat.fin 0))).written =
        some (EFloat.fin 0)) ∧
    ((CalculateInteractionScore (InteractionState.mk (-1) [Feature.mk 2] 1)
        (List.replicate 64 0) 1 true (some 7)
        (fun _ _ _ => HBucket.mk 0 (fun _ => EFloat.fin 0))).status = 1 ∧
      (CalculateInteractionScore (InteractionState.mk (-1) [Feature.mk 2] 1)
        (List.replicate 64 0) 1 true (some 7)
        (fun _ _ _ => HBucket.mk 0 (fun _ => EFloat.fin 0))).written = none) :=
  ⟨(calculateInteractionScore_dims_ne2_policy
      (InteractionState.mk (-1) [Feature.mk 2] 1) [0] 1 true (some 7)
      (fun _ _ _ => HBucket.mk 0 (fun _ => EFloat.fin 0))
      (by decide) (by decide)).1 (by decide) (by decide) rfl rfl,
   (calculateInteractionScore_dims_ne2_policy
      (InteractionState.mk (-1) [Feature.mk 2] 1) (List.replicate 64 0) 1 true (some 7)
      (fun _ _ _ => HBucket.mk 0 (fun _ => EFloat.fin 0))
      (by decide) (by decide)).2 (by decide) (by decide) (by decide)⟩

/-- C3: when a call reaches the sizing computation (valid indexes, all bins
at least 2, group length between 1 and MAX_DIMS, samples present, class
count not 0 or 1, thread resources allocated) and any sizing computation
overflows size_t — which is exactly when the sizing cascade
`internalSizing` returns `none` — the call returns the nonzero status 1 and
leaves the score output unchanged (nothing is written). -/
theorem calculateInteractionScore_sizing_overflow_error
    (st : InteractionState) (idxs : List Int) (m : Int)
    (bufAlloc : Option Nat) (Q : Nat → Nat → Fin 4 → HBucket)
    (hvalid : ∀ i ∈ idxs, validIdx st.features i)
    (hbins2 : ∀ i ∈ idxs, 2 ≤ (st.features.getD i.toNat (Feature.mk 0)).countBins)
    (hne0 : idxs.length ≠ 0) (hlen : idxs.length ≤ k_cDimensionsMax)
    (hsmp : st.cSamples ≠ 0) (hlt0 : st.lt ≠ 0) (hlt1 : st.lt ≠ 1)
    (hov : internalSizing st.lt (binsOf st idxs) = none) :
    (CalculateInteractionScore st idxs m true bufAlloc Q).status = 1 ∧
    (CalculateInteractionScore st idxs m true bufAlloc Q).written = none := by
  have hint : CalculateInteractionScoreInternal bufAlloc Q st.lt (binsOf st idxs)
      (clampSplitMin m) = (true, none) := by
    unfold CalculateInteractionScoreInternal
    rw [hov]
  have hlt : ¬ (st.lt = 0 ∨ st.lt = 1) := fun hor => hor.elim hlt0 hlt1
  unfold CalculateInteractionScore
  rw [if_neg hne0, if_neg hsmp, checkFeaturesLoop_none st.features idxs hvalid hbins2,
    if_neg (not_lt.mpr hlen), if_neg hlt, if_pos rfl, hint]
  exact ⟨rfl, rfl⟩

theorem calculateInteractionScore_sizing_overflow_error_witness :
    (CalculateInteractionScore (InteractionState.mk (-1) [Feature.mk (2 ^ 32)] 1)
      [0, 0] 1 true (some 7) (fun _ _ _ => HBucket.mk 0 (fun _ => EFloat.fin 0))).status = 1 ∧
    (CalculateInteractionScore (InteractionState.mk (-1) [Feature.mk (2 ^ 32)] 1)
      [0, 0] 1 true (some 7) (fun _ _ _ => HBucket.mk 0 (fun _ => EFloat.fin 0))).written = none :=
  calculateInteractionScore_sizing_overflow_error
    (InteractionState.mk (-1) [Feature.mk (2 ^ 32)] 1) [0, 0] 1 (some 7)
    (fun _ _ _ => HBucket.mk 0 (fun _ => EFloat.fin 0))
    (by decide) (by decide) (by decide) (by decide) (by decide) (by decide) (by decide)
    (by decide)

/-- C4 counterexample: for the 2-feature regression group with bin counts
(4, 2), the requested scratch buffer is (4·2 + 5)·16 = 208 bytes — the
auxiliary fast-totals region needs 1 + B0 = 5 buckets here — not the
(4·2 + 4)·16 = 192 bytes the claim predicts from exactly 4 auxiliary
bins. -/
theorem requestedBytes_pair_not_four :
    requestedBytes (-1) [4, 2] ≠
      some ((4 * 2 + 4) *
        GetHistogramBucketSize (IsClassification (-1)) (GetVectorLength (-1))) := by decide

/-- C4 amended: for a 2-feature group with bin counts (B0, B1), both at
least 2, the allocated auxiliary region holds `max 4 (1 + B0)` bins (the 4
sweep buckets or the fast-totals scratch, whichever is larger), of which
the sweep uses the first 4 placed after the main tensor; when no sizing
check fires, the requested buffer is
`(B0·B1 + max 4 (1 + B0)) · bin_byte_size` bytes. -/
theorem requestedBytes_pair_formula (lt : Int) (b0 b1 : Nat)
    (h0 : 2 ≤ b0) (_h1 : 2 ≤ b1) (hb0 : b0 < 2 ^ 64 - 1)
    (hm : IsMultiplyError b0 b1 = false)
    (hadd : IsAddError (b0 * b1) (max 4 (1 + b0)) = false)
    (hbo : GetHistogramBucketSizeOverflow (IsClassification lt) (GetVectorLength lt) = false)
    (hmb : IsMultiplyError (b0 * b1 + max 4 (1 + b0))
        (GetHistogramBucketSize (IsClassification lt) (GetVectorLength lt)) = false) :
    requestedBytes lt [b0, b1] =
      some ((b0 * b1 + max 4 (1 + b0)) *
        GetHistogramBucketSize (IsClassification lt) (GetVectorLength lt)) := by
  have hm1 : IsMultiplyError 1 b0 = false := by
    simp [IsMultiplyError]
    omega
  have hloop : sizingLoop [b0, b1] 0 1 = some (b0 * b1, 1 + b0) := by
    unfold sizingLoop
    rw [if_neg (by simp [hm1])]
    unfold sizingLoop
    rw [if_neg (by simp [one_mul, hm])]
    unfold sizingLoop
    simp [one_mul]
    omega
  have haux : (if 1 + b0 < 4 then 4 else 1 + b0) = max 4 (1 + b0) := by
    split <;> omega
  unfold requestedBytes internalSizing
  rw [hloop]
  simp [haux, hadd, hbo, hmb]

theorem requestedBytes_pair_formula_witness :
    requestedBytes (-1) [4, 2] =
      some ((4 * 2 + max 4 (1 + 4)) *
        GetHistogramBucketSize (IsClassification (-1)) (GetVectorLength (-1))) :=
  requestedBytes_pair_formula (-1) 4 2 (by decide) (by decide) (by decide) (by decide)
    (by decide) (by decide) (by decide)

/-- C5: the scratch buffer does not survive a scoring call.
`CalculateInteractionScore` allocates a fresh `CachedInteractionThreadResources`
for each call and destroys it (freeing the byte buffer) before returning, so
the buffer allocated during a call is no longer live after the call and the
heap returns to its pre-call live set: nothing is retained for the next
call.  This contradicts the claimed retention until worker destruction; the
in-source comment that the buffer "is tracked and re-used" and the
`TODO : be smarter about our CachedInteractionThreadResources, otherwise why
have it?` (part_000 lines 114, 407) mark the per-call free as the slip. -/
theorem scoreCallResources_buffer_freed (h : Heap) (cBytesBuffer : Nat) (hwf : h.WF) :
    (∀ b, (scoreCallResources cBytesBuffer h).2 = some b →
      b ∉ (scoreCallResources cBytesBuffer h).1.live) ∧
    (scoreCallResources cBytesBuffer h).1.live = h.live := by
  by_cases hc : CachedRes.init.cap < cBytesBuffer
  · have hcp : 0 < cBytesBuffer := by simpa [CachedRes.init] using hc
    have hres : scoreCallResources cBytesBuffer h =
        (Heap.mk (h.next + 1 + 1) h.live, some (h.next + 1)) := by
      simp [scoreCallResources, halloc, hfree, GetThreadByteBuffer1, CachedRes.init, hcp,
        List.erase_cons_head]
    rw [hres]
    constructor
    · intro b hb
      have hbn : b = h.next + 1 := (Option.some.inj hb).symm
      subst hbn
      intro hmem
      have := hwf _ hmem
      omega
    · rfl
  · have hcp : ¬ 0 < cBytesBuffer := by simpa [CachedRes.init] using hc
    have hres : scoreCallResources cBytesBuffer h =
        (Heap.mk (h.next + 1) h.live, none) := by
      simp [scoreCallResources, halloc, hfree, GetThreadByteBuffer1, CachedRes.init, hcp,
        List.erase_cons_head]
    rw [hres]
    exact ⟨fun b hb => absurd hb (by simp), rfl⟩

theorem scoreCallResources_buffer_freed_witness :
    Heap.WF (Heap.mk 0 []) ∧
    ((∀ b, (scoreCallResources 208 (Heap.mk 0 [])).2 = some b →
        b ∉ (scoreCallResources 208 (Heap.mk 0 [])).1.live) ∧
      (scoreCallResources 208 (Heap.mk 0 [])).1.live = (Heap.mk 0 []).live) :=
  ⟨by decide, scoreCallResources_buffer_freed (Heap.mk 0 []) 208 (by decide)⟩

/-- C6: for every context and every group of valid feature indexes
containing at least one feature with at most 1 bin, the call returns
status 0, writes exactly 0 to the non-null score output, and never enters
the internal histogram-building path. -/
theorem calculateInteractionScore_degenerate_bin
    (st : InteractionState) (idxs : List Int) (m : Int) (resOk : Bool)
    (bufAlloc : Option Nat) (Q : Nat → Nat → Fin 4 → HBucket)
    (hvalid : ∀ i ∈ idxs, validIdx st.features i)
    (hdeg : ∃ i ∈ idxs, (st.features.getD i.toNat (Feature.mk 0)).countBins ≤ 1) :
    (CalculateInteractionScore st idxs m resOk bufAlloc Q).status = 0 ∧
    (CalculateInteractionScore st idxs m resOk bufAlloc Q).written = some (EFloat.fin 0) ∧
    (CalculateInteractionScore st idxs m resOk bufAlloc Q).ranInternal = false := by
  unfold CalculateInteractionScore
  split
  · exact ⟨rfl, rfl, rfl⟩
  · split
    · exact ⟨rfl, rfl, rfl⟩
    · split
      · rename_i r hr
        rw [checkFeaturesLoop_degenerate st.features idxs hvalid hdeg] at hr
        rw [← Option.some.inj hr]
        exact ⟨rfl, rfl, rfl⟩
      · rename_i hr
        rw [checkFeaturesLoop_degenerate st.features idxs hvalid hdeg] at hr
        exact absurd hr (by simp)

theorem calculateInteractionScore_degenerate_bin_witness :
    (CalculateInteractionScore (InteractionState.mk (-1) [Feature.mk 1, Feature.mk 3] 5)
      [1, 0] 1 true (some 7)
      (fun _ _ _ => HBucket.mk 0 (fun _ => EFloat.fin 0))).status = 0 ∧
    (CalculateInteractionScore (InteractionState.mk (-1) [Feature.mk 1, Feature.mk 3] 5)
      [1, 0] 1 true (some 7)
      (fun _ _ _ => HBucket.mk 0 (fun _ => EFloat.fin 0))).written = some (EFloat.fin 0) ∧
    (CalculateInteractionScore (InteractionState.mk (-1) [Feature.mk 1, Feature.mk 3] 5)
      [1, 0] 1 true (some 7)
      (fun _ _ _ => HBucket.mk 0 (fun _ => EFloat.fin 0))).ranInternal = false :=
  calculateInteractionScore_degenerate_bin
    (InteractionState.mk (-1) [Feature.mk 1, Feature.mk 3] 5) [1, 0] 1 true (some 7)
    (fun _ _ _ => HBucket.mk 0 (fun _ => EFloat.fin 0)) (by decide) (by decide)

/-- C7 counterexample: `InitializeInteractionClassification` with class
count 0 and one sample (valid ordinal 2-bin feature, dataset initialization
succeeding) returns a null handle, refuting "accepts class_count 0 ... for
any sample count and returns a non-null handle". -/
theorem initializeInteractionClassification_zero_classes_rejected :
    InitializeInteractionClassification 0 1 [EbmNativeFeature.mk 0 2 0] true = none := by
  decide

/-- C7 amended: class count 1 is accepted for any non-negative sample count
(given valid features and successful dataset initialization), but class
count 0 is accepted only when the sample count is 0; and on any context
whose class count is 0 or 1, every scoring call with a valid group of at
most MAX_DIMS feature indexes returns status 0 with score 0 written. -/
theorem initializeInteraction_class01
    (cS : Int) (features : List EbmNativeFeature) (dsOk : Bool)
    (st : InteractionState) (idxs : List Int) (m : Int) (resOk : Bool)
    (bufAlloc : Option Nat) (Q : Nat → Nat → Fin 4 → HBucket) :
    (0 ≤ cS → features.all (featureOk cS) = true → dsOk = true →
      (InitializeInteractionClassification 1 cS features dsOk).isSome = true) ∧
    (cS ≠ 0 → InitializeInteractionClassification 0 cS features dsOk = none) ∧
    ((st.lt = 0 ∨ st.lt = 1) → (∀ i ∈ idxs, validIdx st.features i) →
      idxs.length ≤ k_cDimensionsMax →
      (CalculateInteractionScore st idxs m resOk bufAlloc Q).status = 0 ∧
      (CalculateInteractionScore st idxs m resOk bufAlloc Q).written = some (EFloat.fin 0)) := by
  refine ⟨?_, ?_, ?_⟩
  · intro h0 hf hds
    subst hds
    simp [InitializeInteractionClassification, AllocateInteraction, hf, not_lt.mpr h0]
  · intro hne
    simp [InitializeInteractionClassification, hne]
  · intro hlt hv hlen
    unfold CalculateInteractionScore
    split
    · exact ⟨rfl, rfl⟩
    · split
      · exact ⟨rfl, rfl⟩
      · split
        · rename_i r hr
          rcases checkFeaturesLoop_valid st.features idxs hv with h | h
          · rw [h] at hr
            exact absurd hr (by simp)
          · rw [h] at hr
            rw [← Option.some.inj hr]
            exact ⟨rfl, rfl⟩
        · rw [if_neg (not_lt.mpr hlen)]
          exact ⟨rfl, rfl⟩

theorem initializeInteraction_class01_witness :
    (InitializeInteractionClassification 1 5 [EbmNativeFeature.mk 0 3 0] true).isSome = true ∧
    InitializeInteractionClassification 0 5 [EbmNativeFeature.mk 0 3 0] true = none ∧
    ((CalculateInteractionScore (InteractionState.mk 1 [Feature.mk 3] 5) [0] 1 true (some 7)
        (fun _ _ _ => HBucket.mk 0 (fun _ => EFloat.fin 0))).status = 0 ∧
      (CalculateInteractionScore (InteractionState.mk 1 [Feature.mk 3] 5) [0] 1 true (some 7)
        (fun _ _ _ => HBucket.mk 0 (fun _ => EFloat.fin 0))).written = some (EFloat.fin 0)) :=
  ⟨(initializeInteraction_class01 5 [EbmNativeFeature.mk 0 3 0] true
      (InteractionState.mk 1 [Feature.mk 3] 5) [0] 1 true (some 7)
      (fun _ _ _ => HBucket.mk 0 (fun _ => EFloat.fin 0))).1
      (by decide) (by decide) rfl,
   (initializeInteraction_class01 5 [EbmNativeFeature.mk 0 3 0] true
      (InteractionState.mk 1 [Feature.mk 3] 5) [0] 1 true (some 7)
      (fun _ _ _ => HBucket.mk 0 (fun _ => EFloat.fin 0))).2.1 (by decide),
   (initializeInteraction_class01 5 [EbmNativeFeature.mk 0 3 0] true
      (InteractionState.mk 1 [Feature.mk 3] 5) [0] 1 true (some 7)
      (fun _ _ _ => HBucket.mk 0 (fun _ => EFloat.fin 0))).2.2
      (by decide) (by decide) (by decide)⟩

/-- C8 counterexample: a growth request of 2^63 bytes on an empty arena
records capacity (2^63 << 1) mod 2^64 = 0, not the claimed 2·2^63 = 2^64
(which does not fit in size_t). -/
theorem getThreadByteBuffer1_capacity_not_double :
    (GetThreadByteBuffer1 (CachedRes.mk 0 none) (some 0) (2 ^ 63)).mem.cap ≠ 2 * 2 ^ 63 := by
  decide

/-- C8 amended: on a request of n bytes, if the capacity is at least n the
stored buffer is returned with the arena unchanged and nothing freed or
allocated; if the capacity is below n, the old buffer is passed to `free`
without any copy, the stored pointer and the returned pointer both become
the fresh allocation result, and the recorded capacity becomes
2n mod 2^64 (`n << 1` in size_t, which wraps for n ≥ 2^63). -/
theorem getThreadByteBuffer1_policy (mem : CachedRes) (allocResult : Option Nat) (n : Nat) :
    (n ≤ mem.cap →
      GetThreadByteBuffer1 mem allocResult n = BufRequest.mk mem.buf mem none) ∧
    (mem.cap < n →
      GetThreadByteBuffer1 mem allocResult n =
        BufRequest.mk allocResult
          (CachedRes.mk ((2 * n) % 2 ^ 64) allocResult) mem.buf) := by
  have h2 : n <<< 1 = 2 * n := by rw [Nat.shiftLeft_eq]; ring
  constructor
  · intro hle
    unfold GetThreadByteBuffer1
    rw [if_neg (not_lt.mpr hle)]
  · intro hlt
    unfold GetThreadByteBuffer1
    rw [if_pos hlt, h2]

theorem getThreadByteBuffer1_policy_witness :
    (GetThreadByteBuffer1 (CachedRes.mk 5 (some 3)) (some 9) 4 =
      BufRequest.mk (some 3) (CachedRes.mk 5 (some 3)) none) ∧
    (GetThreadByteBuffer1 (CachedRes.mk 5 (some 3)) (some 9) 6 =
      BufRequest.mk (some 9) (CachedRes.mk ((2 * 6) % 2 ^ 64) (some 9)) (some 3)) :=
  ⟨(getThreadByteBuffer1_policy (CachedRes.mk 5 (some 3)) (some 9) 4).1 (by decide),
   (getThreadByteBuffer1_policy (CachedRes.mk 5 (some 3)) (some 9) 6).2 (by decide)⟩

/-- C9: a `countSamplesRequiredForChildSplitMin` below 1 is silently
clamped to 1, and the whole call behaves exactly as if 1 had been passed —
in particular no error status can arise from this argument.  On the
modelled 64-bit host no int64 exceeds the size_t range, so the saturation
branch of the clamp is unreachable. -/
theorem calculateInteractionScore_split_min_clamped
    (st : InteractionState) (idxs : List Int) (resOk : Bool)
    (bufAlloc : Option Nat) (Q : Nat → Nat → Fin 4 → HBucket)
    (v : Int) (hv : v < 1) :
    clampSplitMin v = 1 ∧
    CalculateInteractionScore st idxs v resOk bufAlloc Q =
      CalculateInteractionScore st idxs 1 resOk bufAlloc Q := by
  have hc : clampSplitMin v = 1 := by
    unfold clampSplitMin
    rw [if_neg (by omega)]
  refine ⟨hc, ?_⟩
  unfold CalculateInteractionScore
  rw [hc, show clampSplitMin 1 = 1 from rfl]

theorem calculateInteractionScore_split_min_clamped_witness :
    clampSplitMin 0 = 1 ∧
    CalculateInteractionScore (InteractionState.mk (-1) [Feature.mk 2] 3) [0] 0 true (some 7)
        (fun _ _ _ => HBucket.mk 0 (fun _ => EFloat.fin 0)) =
      CalculateInteractionScore (InteractionState.mk (-1) [Feature.mk 2] 3) [0] 1 true (some 7)
        (fun _ _ _ => HBucket.mk 0 (fun _ => EFloat.fin 0)) :=
  calculateInteractionScore_split_min_clamped
    (InteractionState.mk (-1) [Feature.mk 2] 3) [0] true (some 7)
    (fun _ _ _ => HBucket.mk 0 (fun _ => EFloat.fin 0)) 0 (by decide)

/-- C10 counterexample: a failed growth to 2^63 bytes on a zeroed arena
leaves the recorded capacity at (2^63 << 1) mod 2^64 = 0, not the claimed
2·2^63; in this wraparound corner the arena state after the failed growth
even equals its pre-call state. -/
theorem getThreadByteBuffer1_failed_growth_not_double :
    (GetThreadByteBuffer1 (CachedRes.mk 0 none) none (2 ^ 63)).mem.cap ≠ 2 * 2 ^ 63 ∧
    (GetThreadByteBuffer1 (CachedRes.mk 0 none) none (2 ^ 63)).mem = CachedRes.mk 0 none := by
  decide

/-- C10 amended: on every growth request the old buffer is passed to `free`
and the stored pointer is overwritten with the allocation result before
returning — so the arena never holds a dangling pointer; after a failed
growth allocation the stored pointer is null and is what the caller
receives, while the recorded capacity has already been set to
2n mod 2^64 (`n << 1` in size_t). -/
theorem getThreadByteBuffer1_failed_growth (mem : CachedRes) (n : Nat) (hlt : mem.cap < n) :
    (∀ allocResult,
      (GetThreadByteBuffer1 mem allocResult n).mem.buf = allocResult ∧
      (GetThreadByteBuffer1 mem allocResult n).freedOld = mem.buf) ∧
    ((GetThreadByteBuffer1 mem none n).ret = none ∧
      (GetThreadByteBuffer1 mem none n).mem.buf = none ∧
      (GetThreadByteBuffer1 mem none n).mem.cap = (2 * n) % 2 ^ 64) := by
  have h2 : n <<< 1 = 2 * n := by rw [Nat.shiftLeft_eq]; ring
  constructor
  · intro allocResult
    unfold GetThreadByteBuffer1
    rw [if_pos hlt]
    exact ⟨rfl, rfl⟩
  · unfold GetThreadByteBuffer1
    rw [if_pos hlt, h2]
    exact ⟨rfl, rfl, rfl⟩

theorem getThreadByteBuffer1_failed_growth_witness :
    ((GetThreadByteBuffer1 (CachedRes.mk 0 none) (some 5) 6).mem.buf = some 5 ∧
      (GetThreadByteBuffer1 (CachedRes.mk 0 none) (some 5) 6).freedOld = none) ∧
    ((GetThreadByteBuffer1 (CachedRes.mk 0 none) none 6).ret = none ∧
      (GetThreadByteBuffer1 (CachedRes.mk 0 none) none 6).mem.buf = none ∧
      (GetThreadByteBuffer1 (CachedRes.mk 0 none) none 6).mem.cap = (2 * 6) % 2 ^ 64) :=
  ⟨(getThreadByteBuffer1_failed_growth (CachedRes.mk 0 none) 6 (by decide)).1 (some 5),
   (getThreadByteBuffer1_failed_growth (CachedRes.mk 0 none) 6 (by decide)).2⟩
